import Mathlib

/-!
Verification of the Fee Accrual & Position Close Engine of the gateway.

The definitions below are a shallow embedding of the TypeScript source:
  - src/connectors/uniswap/clmm-routes/positionInfo.ts
  - src/connectors/uniswap/clmm-routes/closePosition.ts (Uniswap atomic model
    and Meteora sequential model)
Unsigned 256-bit accumulators (ethers BigNumber holding uint256 values) are
modelled as natural numbers; ticks (int24 after the fromTwos(24) decode) as
integers; Solana-side JavaScript number arithmetic as rationals.
-/

namespace Gateway

/-- Q128 scale constant, `BigNumber.from(2).pow(128)` in the source. -/
def Q128 : ℕ := 2 ^ 128

/-- Embeds `safeSub` (positionInfo.ts line 132 and closePosition.ts line 158):
`(a, b) => (a.gte(b) ? a.sub(b) : BigNumber.from(0))`. -/
def safeSub (a b : ℕ) : ℕ := if a ≥ b then a - b else 0

/-- Embeds `feeGrowthInside` (positionInfo.ts lines 133-144 and
closePosition.ts lines 159-170). -/
def feeGrowthInside (global lowerOutside upperOutside : ℕ)
    (current lower upper : ℤ) : ℕ :=
  let feeBelow := if current ≥ lower then lowerOutside else safeSub global lowerOutside
  let feeAbove := if current < upper then upperOutside else safeSub global upperOutside
  safeSub global (feeBelow + feeAbove)

/-- Embeds the delta guard (positionInfo.ts lines 165-170, closePosition.ts
lines 191-196): `inside.gte(last) ? inside.sub(last) : 0`. -/
def deltaFeeGrowth (insideNow insideLast : ℕ) : ℕ :=
  if insideNow ≥ insideLast then insideNow - insideLast else 0

/-- Embeds `uncollected0/1 = liquidity.mul(delta).div(Q128)`
(positionInfo.ts lines 172-173, closePosition.ts lines 198-199);
BigNumber `div` on unsigned values is floor division. -/
def uncollected (liquidity insideNow insideLast : ℕ) : ℕ :=
  liquidity * deltaFeeGrowth insideNow insideLast / Q128

/-- Embeds `totalFee0/1 = feeAmountRaw.add(uncollected)`
(positionInfo.ts lines 175-176, closePosition.ts lines 201-202). -/
def totalFee (tokensOwed liquidity insideNow insideLast : ℕ) : ℕ :=
  tokensOwed + uncollected liquidity insideNow insideLast

/-- Modelled from the spec words (refinement reference only):
`clampedSub(a,b) = a>=b ? a-b : 0`. -/
def clampedSub (a b : ℕ) : ℕ := if a ≥ b then a - b else 0

/-- C1: `feeGrowthInside` matches the spec formula built from `clampedSub`
with the inclusive-lower / exclusive-upper tie-break, and on the concrete
input `global=100·Q128, lowerOutside=10·Q128, upperOutside=20·Q128,
currentTick=0, lower=-10, upper=10` it returns `70·Q128`. -/
theorem feeGrowthInside_matches_spec :
    (∀ (global lowerOutside upperOutside : ℕ) (currentTick lower upper : ℤ),
      feeGrowthInside global lowerOutside upperOutside currentTick lower upper =
        clampedSub global
          ((if currentTick ≥ lower then lowerOutside else clampedSub global lowerOutside) +
           (if currentTick < upper then upperOutside else clampedSub global upperOutside)))
    ∧ feeGrowthInside (100 * Q128) (10 * Q128) (20 * Q128) 0 (-10) 10 = 70 * Q128 := by
  constructor
  · intro global lowerOutside upperOutside currentTick lower upper
    rfl
  · decide

/-- C2: the total fee reported per token is
`tokensOwed + floor(liquidity * delta / 2^128)` with the clamped delta,
it collapses to `tokensOwed` when the accumulator reads backwards, and
the concrete instance `liquidity=1000, insideLast=50·Q128, insideNow=70·Q128,
tokensOwed=0` yields `20000`. -/
theorem totalFee_matches_spec :
    (∀ (tokensOwed liquidity insideNow insideLast : ℕ),
      totalFee tokensOwed liquidity insideNow insideLast =
        tokensOwed +
          liquidity * (if insideNow ≥ insideLast then insideNow - insideLast else 0) / 2 ^ 128)
    ∧ (∀ (tokensOwed liquidity insideNow insideLast : ℕ),
        insideNow < insideLast →
          totalFee tokensOwed liquidity insideNow insideLast = tokensOwed)
    ∧ totalFee 0 1000 (70 * Q128) (50 * Q128) = 20000 := by
  refine ⟨fun tokensOwed liquidity insideNow insideLast => rfl, ?_, by decide⟩
  intro tokensOwed liquidity insideNow insideLast h
  simp [totalFee, uncollected, deltaFeeGrowth, Nat.not_le.mpr h, not_le_of_lt h]

/-- C2 witness: the backward-read guard at a concrete input. -/
theorem totalFee_matches_spec_witness : totalFee 5 3 0 1 = 5 :=
  totalFee_matches_spec.2.1 5 3 0 1 (by decide)

lemma safeSub_le (a b : ℕ) : safeSub a b ≤ a := by
  unfold safeSub; split <;> omega

/-- C8: the inside fee growth never exceeds the global accumulator. -/
theorem feeGrowthInside_le_global
    (global lowerOutside upperOutside : ℕ) (currentTick lower upper : ℤ) :
    feeGrowthInside global lowerOutside upperOutside currentTick lower upper ≤ global :=
  safeSub_le global _

/-! ### Base/quote resolution -/

/-- Token data as used by the resolver: the `Token` objects from the token
registry, restricted to the two fields the code reads. -/
structure TokenRef where
  address : String
  symbol  : String
deriving DecidableEq, Repr

/-- Models JavaScript `String.prototype.toLowerCase` on the ASCII identifier
strings used here (`address.toLowerCase()`). -/
def toLowerStr (s : String) : String := String.mk (s.data.map Char.toLower)

/-- Code-unit lexicographic comparison of character lists, modelling the
JavaScript `<` operator on strings. -/
def ltChars : List Char → List Char → Bool
  | _, [] => false
  | [], _ :: _ => true
  | a :: as, b :: bs =>
    if a.toNat < b.toNat then true
    else if b.toNat < a.toNat then false
    else ltChars as bs

def ltStr (a b : String) : Bool := ltChars a.data b.data

/-- Embeds `isBaseToken0` (positionInfo.ts lines 212-214 and closePosition.ts
lines 78-80): token0 is base when its symbol is WETH, or when the token1
symbol is not WETH and the lower-cased token0 address compares smaller. -/
def isBaseToken0 (token0 token1 : TokenRef) : Bool :=
  token0.symbol == "WETH" ||
    (token1.symbol != "WETH" && ltStr (toLowerStr token0.address) (toLowerStr token1.address))

/-- The (base, quote) assignment derived from `isBaseToken0`
(positionInfo.ts lines 216-218). -/
def resolve (token0 token1 : TokenRef) : TokenRef × TokenRef :=
  if isBaseToken0 token0 token1 then (token0, token1) else (token1, token0)

lemma ltChars_asymm : ∀ (as bs : List Char), ltChars as bs = true → ltChars bs as = false := by
  intro as
  induction as with
  | nil =>
    intro bs h
    cases bs with
    | nil => simp [ltChars] at h
    | cons b bs => simp [ltChars]
  | cons a as ih =>
    intro bs h
    cases bs with
    | nil => simp [ltChars] at h
    | cons b bs =>
      simp only [ltChars] at h ⊢
      by_cases h1 : a.toNat < b.toNat
      · have h2 : ¬ b.toNat < a.toNat := by omega
        simp [h2, h1]
      · by_cases h2 : b.toNat < a.toNat
        · simp [h1, h2] at h
        · simp [h1, h2] at h ⊢
          exact ih bs h

lemma ltChars_eq_of_both_not :
    ∀ (as bs : List Char), ltChars as bs = false → ltChars bs as = false → as = bs := by
  intro as
  induction as with
  | nil =>
    intro bs h1 _h2
    cases bs with
    | nil => rfl
    | cons b bs => simp [ltChars] at h1
  | cons a as ih =>
    intro bs h1 h2
    cases bs with
    | nil => simp [ltChars] at h2
    | cons b bs =>
      simp only [ltChars] at h1 h2
      by_cases hab : a.toNat < b.toNat
      · simp [hab] at h1
      · by_cases hba : b.toNat < a.toNat
        · simp [hba] at h2
        · have hn : a.toNat = b.toNat := by omega
          have hc : a = b := Char.ext (UInt32.ext hn)
          rw [hc, ih bs (by simpa [hab, hba] using h1) (by simpa [hab, hba] using h2)]

lemma ltStr_total_of_ne {a b : String} (h : a ≠ b) : ltStr a b = true ∨ ltStr b a = true := by
  cases hab : ltStr a b with
  | true => exact Or.inl rfl
  | false =>
    cases hba : ltStr b a with
    | true => exact Or.inr rfl
    | false =>
      exfalso
      apply h
      cases a with
      | mk da =>
        cases b with
        | mk db => rw [ltChars_eq_of_both_not da db hab hba]

/-- C5 counterexample: two distinct tokens that both carry the symbol WETH
are resolved order-dependently, so the claim fails as universally stated. -/
theorem resolve_order_dependent_cex :
    (⟨"0x1", "WETH"⟩ : TokenRef) ≠ ⟨"0x2", "WETH"⟩ ∧
    resolve ⟨"0x1", "WETH"⟩ ⟨"0x2", "WETH"⟩ ≠ resolve ⟨"0x2", "WETH"⟩ ⟨"0x1", "WETH"⟩ := by
  decide

/-- C5 (amended): for tokens whose lower-cased addresses differ and that do
not both carry the symbol WETH, base/quote resolution is a function of the
unordered pair: the WETH-symbol token is base, otherwise the token with the
lexicographically smaller case-insensitive address is base. -/
theorem resolve_symmetric_amended (A B : TokenRef)
    (haddr : toLowerStr A.address ≠ toLowerStr B.address)
    (hweth : ¬(A.symbol = "WETH" ∧ B.symbol = "WETH")) :
    resolve A B = resolve B A ∧
    (A.symbol = "WETH" → (resolve A B).1 = A) ∧
    (B.symbol = "WETH" → (resolve A B).1 = B) ∧
    (A.symbol ≠ "WETH" → B.symbol ≠ "WETH" →
      (resolve A B).1 =
        (if ltStr (toLowerStr A.address) (toLowerStr B.address) = true then A else B)) := by
  by_cases hA : A.symbol = "WETH"
  · have hB : B.symbol ≠ "WETH" := fun h => hweth ⟨hA, h⟩
    refine ⟨?_, fun _ => ?_, fun h => absurd h hB, fun h _ => absurd hA h⟩ <;>
      simp [resolve, isBaseToken0, hA, hB]
  · by_cases hB : B.symbol = "WETH"
    · refine ⟨?_, fun h => absurd h hA, fun _ => ?_, fun _ h => absurd hB h⟩ <;>
        simp [resolve, isBaseToken0, hA, hB]
    · rcases ltStr_total_of_ne haddr with hlt | hlt
      · have hgt := ltChars_asymm _ _ hlt
        refine ⟨?_, fun h => absurd h hA, fun h => absurd h hB, fun _ _ => ?_⟩ <;>
          simp [resolve, isBaseToken0, hA, hB, hlt, ltStr] at * <;>
          simp [hgt, hlt]
      · have hgt := ltChars_asymm _ _ hlt
        refine ⟨?_, fun h => absurd h hA, fun h => absurd h hB, fun _ _ => ?_⟩ <;>
          simp [resolve, isBaseToken0, hA, hB, hlt, ltStr] at * <;>
          simp [hgt, hlt]

/-- C5 witness: the amended symmetry at a concrete distinct pair. -/
theorem resolve_symmetric_amended_witness :
    resolve ⟨"0x1", "WETH"⟩ ⟨"0x2", "USDC"⟩ = resolve ⟨"0x2", "USDC"⟩ ⟨"0x1", "WETH"⟩ :=
  (resolve_symmetric_amended ⟨"0x1", "WETH"⟩ ⟨"0x2", "USDC"⟩ (by decide) (by decide)).1

/-! ### Retry policy

`withRetries` (positionInfo.ts lines 84-98, closePosition.ts lines 113-127)
is a loop over attempt indices; the i-th invocation outcome is modelled by
`op i`. The trace records the returned value (or the thrown `lastError`,
`none` when no attempt ran), the number of invocations, and the sleep
durations in order. -/

structure RetryTrace (ε α : Type) where
  result : Except (Option ε) α
  calls : ℕ
  delays : List ℕ
deriving Repr

/-- The retry loop body: `remaining` counts loop iterations still allowed
(`attempts - i` at entry), `i` is the current attempt index. -/
def withRetriesGo (op : ℕ → Except ε α) (attempts baseDelayMs : ℕ) :
    ℕ → ℕ → Option ε → List ℕ → RetryTrace ε α
  | 0, i, lastError, delays => ⟨Except.error lastError, i, delays⟩
  | remaining + 1, i, _lastError, delays =>
    match op i with
    | Except.ok v => ⟨Except.ok v, i + 1, delays⟩
    | Except.error e =>
      if i < attempts - 1 then
        withRetriesGo op attempts baseDelayMs remaining (i + 1) (some e)
          (delays ++ [baseDelayMs * 2 ^ i])
      else
        withRetriesGo op attempts baseDelayMs remaining (i + 1) (some e) delays

/-- Embeds `withRetries(fn, attempts = 3, baseDelayMs = 250)`. -/
def withRetries (op : ℕ → Except ε α) (attempts baseDelayMs : ℕ) : RetryTrace ε α :=
  withRetriesGo op attempts baseDelayMs attempts 0 none []

lemma withRetriesGo_calls_le (op : ℕ → Except ε α) (attempts base : ℕ) :
    ∀ (remaining i : ℕ) (lastErr : Option ε) (delays : List ℕ),
      (withRetriesGo op attempts base remaining i lastErr delays).calls ≤ i + remaining := by
  intro remaining
  induction remaining with
  | zero => intro i l d; simp [withRetriesGo]
  | succ r ih =>
    intro i l d
    simp only [withRetriesGo]
    split
    next v _ => simp
    next e _ =>
      split
      next h => exact (ih (i + 1) (some e) (d ++ [base * 2 ^ i])).trans (by omega)
      next h => exact (ih (i + 1) (some e) d).trans (by omega)

lemma withRetriesGo_success (op : ℕ → Except ε α) (attempts base : ℕ) {k : ℕ} {v : α}
    (hk : k < attempts) (hok : op k = Except.ok v)
    (hfail : ∀ j, j < k → ∃ e, op j = Except.error e) :
    ∀ (remaining i : ℕ) (lastErr : Option ε) (delays : List ℕ),
      i + remaining = attempts → i ≤ k →
      withRetriesGo op attempts base remaining i lastErr delays =
        ⟨Except.ok v, k + 1, delays ++ (List.range' i (k - i)).map (fun j => base * 2 ^ j)⟩ := by
  intro remaining
  induction remaining with
  | zero =>
    intro i lastErr delays hsum hik
    exact absurd hk (by omega)
  | succ r ih =>
    intro i lastErr delays hsum hik
    simp only [withRetriesGo]
    by_cases hik2 : i = k
    · subst hik2
      rw [hok]
      simp
    · have hik3 : i < k := by omega
      obtain ⟨e, he⟩ := hfail i hik3
      simp only [he]
      rw [if_pos (show i < attempts - 1 by omega)]
      rw [ih (i + 1) (some e) (delays ++ [base * 2 ^ i]) (by omega) (by omega)]
      have hki : k - i = (k - (i + 1)) + 1 := by omega
      rw [List.append_assoc, hki, List.range'_succ]
      simp

lemma withRetriesGo_allfail (op : ℕ → Except ε α) (attempts base : ℕ) {e : ε}
    (hlast : op (attempts - 1) = Except.error e)
    (hfail : ∀ j, j < attempts → ∃ e0, op j = Except.error e0) :
    ∀ (remaining i : ℕ) (lastErr : Option ε) (delays : List ℕ),
      i + remaining = attempts → remaining ≠ 0 →
      withRetriesGo op attempts base remaining i lastErr delays =
        ⟨Except.error (some e), attempts,
          delays ++ (List.range' i (attempts - 1 - i)).map (fun j => base * 2 ^ j)⟩ := by
  intro remaining
  induction remaining with
  | zero => intro i l d hsum h0; exact absurd rfl h0
  | succ r ih =>
    intro i lastErr delays hsum _
    simp only [withRetriesGo]
    by_cases hlasti : i = attempts - 1
    · have hi : op i = Except.error e := by rw [hlasti]; exact hlast
      simp only [hi]
      rw [if_neg (show ¬ i < attempts - 1 by omega)]
      have hr : r = 0 := by omega
      subst hr
      have ha : attempts = i + 1 := by omega
      subst ha
      simp [withRetriesGo]
    · obtain ⟨e0, he0⟩ := hfail i (by omega)
      simp only [he0]
      rw [if_pos (show i < attempts - 1 by omega)]
      rw [ih (i + 1) (some e0) (delays ++ [base * 2 ^ i]) (by omega) (by omega)]
      have hki : attempts - 1 - i = (attempts - 1 - (i + 1)) + 1 := by omega
      rw [List.append_assoc, hki, List.range'_succ]
      simp

/-- C7: `withRetries` invokes the operation at most `attempts` times; if the
k-th invocation succeeds after k failures it returns that value immediately
after exactly k+1 invocations with backoff delays `baseDelayMs * 2^j` for
j < k; if all `attempts` invocations fail, it propagates the last error
after exactly `attempts` invocations. -/
theorem withRetry_contract (op : ℕ → Except ε α) (attempts baseDelayMs : ℕ) :
    ((withRetries op attempts baseDelayMs).calls ≤ attempts)
    ∧ (∀ k v, k < attempts → (∀ j, j < k → ∃ e, op j = Except.error e) →
        op k = Except.ok v →
        withRetries op attempts baseDelayMs =
          ⟨Except.ok v, k + 1, (List.range k).map (fun j => baseDelayMs * 2 ^ j)⟩)
    ∧ (∀ e, 0 < attempts → (∀ j, j < attempts → ∃ e0, op j = Except.error e0) →
        op (attempts - 1) = Except.error e →
        withRetries op attempts baseDelayMs =
          ⟨Except.error (some e), attempts,
            (List.range (attempts - 1)).map (fun j => baseDelayMs * 2 ^ j)⟩) := by
  refine ⟨?_, ?_, ?_⟩
  · have := withRetriesGo_calls_le op attempts baseDelayMs attempts 0 none []
    simpa [withRetries] using this
  · intro k v hk hfail hok
    have := withRetriesGo_success op attempts baseDelayMs hk hok hfail attempts 0 none []
      (by omega) (by omega)
    simpa [withRetries, List.range_eq_range'] using this
  · intro e hpos hfail hlast
    have := withRetriesGo_allfail op attempts baseDelayMs hlast hfail attempts 0 none []
      (by omega) (by omega)
    simpa [withRetries, List.range_eq_range'] using this

/-- C7 witness: the default configuration (3 attempts, 250ms base delay) on
an operation failing twice then succeeding returns the success value after
exactly three invocations, with delays 250ms and 500ms. -/
theorem withRetry_contract_witness :
    withRetries (fun i => if i < 2 then Except.error 0 else Except.ok 42) 3 250 =
      ⟨Except.ok 42, 3, [250, 500]⟩ := by
  have h := (withRetry_contract (fun i => if i < 2 then Except.error 0 else Except.ok 42)
      3 250).2.1 2 42 (by omega)
    (fun j hj => ⟨0, by simp [hj]⟩)
    (by simp)
  exact h.trans rfl

/-! ### Request-level control flow

The remaining claims concern the error-handling and data-flow structure of
`getPositionInfo` (positionInfo.ts) and the two `closePosition` variants.
Collaborator calls (chain RPC reads, ownership check, pool lookup, the SDK
amount math, transaction execution) are modelled by an environment record
holding each call's outcome; the functions below reproduce the source's
control flow over those outcomes. -/

/-- The HTTP error kinds raised via `fastify.httpErrors` / `httpErrors`,
plus `chain` for a raw collaborator error carrying no `statusCode`. -/
inductive GatewayError where
  | badRequest (msg : String)
  | notFound (msg : String)
  | forbidden (msg : String)
  | internalServerError (msg : String)
  | chain (msg : String)
deriving DecidableEq, Repr

/-- `e.statusCode` is set exactly on the fastify http errors. -/
def GatewayError.hasStatusCode : GatewayError → Bool
  | .chain _ => false
  | _ => true

/-- `pat` is a prefix of the second list. -/
def prefixChars : List Char → List Char → Bool
  | [], _ => true
  | _ :: _, [] => false
  | a :: as, b :: bs => a == b && prefixChars as bs

def containsChars (pat : List Char) : List Char → Bool
  | [] => pat.isEmpty
  | c :: rest => prefixChars pat (c :: rest) || containsChars pat rest

/-- JavaScript `s.includes(pat)`. -/
def containsSub (s pat : String) : Bool := containsChars pat.data s.data

/-- The fields of `positionManager.positions(tokenId)` read by the code,
ticks already decoded by `normalizeTick` (fromTwos(24)). -/
structure PositionDetails where
  token0 : TokenRef
  token1 : TokenRef
  tickLower : ℤ
  tickUpper : ℤ
  liquidity : ℕ
  tokensOwed0 : ℕ
  tokensOwed1 : ℕ
  feeGrowthInside0Last : ℕ
  feeGrowthInside1Last : ℕ
deriving DecidableEq, Repr

/-- `ticks(tick)` result fields used by the code. -/
structure TickInfo where
  feeGrowthOutside0 : ℕ
  feeGrowthOutside1 : ℕ
deriving DecidableEq, Repr

deriving instance DecidableEq for Except

/-- Outcomes of the five concurrent pool reads, each after its own
`withRetries` wrapper has either returned a value or exhausted its
attempts (positionInfo.ts lines 107-119, closePosition.ts lines 140-147). -/
structure AccReads where
  feeGrowthGlobal0 : Except String ℕ
  feeGrowthGlobal1 : Except String ℕ
  slot0Tick : Except String ℤ
  lowerTickData : Except String TickInfo
  upperTickData : Except String TickInfo
deriving DecidableEq, Repr

/-- The fee-enrichment try/catch block shared verbatim by positionInfo.ts
(lines 99-181) and closePosition.ts (lines 129-208): on success of all five
reads, `(totalFee0, totalFee1, false)`; if any read failed (the awaited
`Promise.all` rejects into the catch), the totals stay `tokensOwed` and the
third component records that the warning branch ran. -/
def feeTotals (pd : PositionDetails) (reads : AccReads) : ℕ × ℕ × Bool :=
  match reads.feeGrowthGlobal0, reads.feeGrowthGlobal1, reads.slot0Tick,
      reads.lowerTickData, reads.upperTickData with
  | Except.ok g0, Except.ok g1, Except.ok ct, Except.ok lo, Except.ok up =>
    let inside0 := feeGrowthInside g0 lo.feeGrowthOutside0 up.feeGrowthOutside0
      ct pd.tickLower pd.tickUpper
    let inside1 := feeGrowthInside g1 lo.feeGrowthOutside1 up.feeGrowthOutside1
      ct pd.tickLower pd.tickUpper
    (totalFee pd.tokensOwed0 pd.liquidity inside0 pd.feeGrowthInside0Last,
     totalFee pd.tokensOwed1 pd.liquidity inside1 pd.feeGrowthInside1Last,
     false)
  | _, _, _, _, _ => (pd.tokensOwed0, pd.tokensOwed1, true)

/-- Some accumulator read failed after retry exhaustion. -/
def accFailed (reads : AccReads) : Prop :=
  reads.feeGrowthGlobal0.isOk = false ∨ reads.feeGrowthGlobal1.isOk = false ∨
  reads.slot0Tick.isOk = false ∨ reads.lowerTickData.isOk = false ∨
  reads.upperTickData.isOk = false

/-- Collaborator outcomes for one `getPositionInfo` request. An absent
query parameter arrives as the empty (falsy) `positionAddress`. -/
structure PositionInfoEnv where
  positionAddress : String
  positions : Except String PositionDetails
  reads : AccReads
  poolFound : Bool
deriving Repr

/-- The fee-related slice of the `PositionInfo` response (base/quote mapping
per `isBaseToken0`), plus whether the degraded-path warning was logged. -/
structure PositionInfoResult where
  baseFeeAmount : ℕ
  quoteFeeAmount : ℕ
  warned : Bool
deriving DecidableEq, Repr

/-- Embeds the `getPositionInfo` control flow (positionInfo.ts lines 26-241):
missing id check, position lookup (an `Invalid token ID` revert propagates
uncaught), fee enrichment with catch-all downgrade, pool existence check,
base/quote assembly. -/
def getPositionInfo (env : PositionInfoEnv) : Except GatewayError PositionInfoResult :=
  if env.positionAddress = "" then
    Except.error (GatewayError.badRequest "Position token ID is required")
  else
    match env.positions with
    | Except.error msg => Except.error (GatewayError.chain msg)
    | Except.ok pd =>
      let tf := feeTotals pd env.reads
      if env.poolFound then
        if isBaseToken0 pd.token0 pd.token1 then
          Except.ok ⟨tf.1, tf.2.1, tf.2.2⟩
        else
          Except.ok ⟨tf.2.1, tf.1, tf.2.2⟩
      else Except.error (GatewayError.notFound "Pool not found for position")

/-- The route-level catch (positionInfo.ts lines 271-282 and
closePosition.ts lines 339-360): errors with a `statusCode` are rethrown,
anything else becomes a generic internal error. -/
def routeWrap (msg : String) (r : Except GatewayError α) : Except GatewayError α :=
  match r with
  | Except.error e =>
    if e.hasStatusCode then Except.error e
    else Except.error (GatewayError.internalServerError msg)
  | Except.ok v => Except.ok v

def positionInfoRoute (env : PositionInfoEnv) : Except GatewayError PositionInfoResult :=
  routeWrap "Failed to get position info" (getPositionInfo env)

namespace Uniswap

/-- Transaction receipt fields read by the code. -/
structure Receipt where
  transactionHash : String
  status : ℕ
  gasUsed : ℕ
  effectiveGasPrice : ℕ
deriving DecidableEq, Repr

/-- Collaborator outcomes for one Uniswap `closePosition` request.
`ownershipThrew` is the message of the error thrown by
`checkNFTOwnership`, if any; `amount0`/`amount1` are the SDK `Position`
expected withdrawal amounts computed from the pre-transaction pool state;
`receipt` is the confirmed multicall receipt. -/
structure CloseEnv where
  positionAddress : String
  walletFound : Bool
  ownershipThrew : Option String
  positions : Except String PositionDetails
  reads : AccReads
  poolFound : Bool
  amount0 : ℕ
  amount1 : ℕ
  receipt : Receipt
deriving Repr

structure CloseData where
  fee : ℕ
  positionRentRefunded : ℕ
  baseTokenAmountRemoved : ℕ
  quoteTokenAmountRemoved : ℕ
  baseFeeAmountCollected : ℕ
  quoteFeeAmountCollected : ℕ
deriving DecidableEq, Repr

structure CloseResult where
  signature : String
  status : ℕ
  data : CloseData
deriving DecidableEq, Repr

/-- The successful-close response assembled at closePosition.ts
lines 237-245 and 286-320: amounts removed are the SDK-expected liquidity
amounts plus the fee estimate, fee amounts are the estimate itself, gas fee
and signature/status come from the receipt. -/
def closeSuccess (env : CloseEnv) (pd : PositionDetails) : CloseResult :=
  let tf := feeTotals pd env.reads
  let totalAmount0 := env.amount0 + tf.1
  let totalAmount1 := env.amount1 + tf.2.1
  let isBase := isBaseToken0 pd.token0 pd.token1
  { signature := env.receipt.transactionHash
    status := env.receipt.status
    data := {
      fee := env.receipt.gasUsed * env.receipt.effectiveGasPrice
      positionRentRefunded := 0
      baseTokenAmountRemoved := if isBase then totalAmount0 else totalAmount1
      quoteTokenAmountRemoved := if isBase then totalAmount1 else totalAmount0
      baseFeeAmountCollected := if isBase then tf.1 else tf.2.1
      quoteFeeAmountCollected := if isBase then tf.2.1 else tf.1 } }

/-- Embeds the Uniswap `closePosition` control flow (closePosition.ts
lines 25-321): parameter check, wallet lookup, ownership check with its
message-based error mapping, position lookup with the `invalid token id`
to `NotFound` mapping, already-closed check, fee enrichment with catch-all
downgrade, pool check, response assembly. -/
def closePosition (env : CloseEnv) : Except GatewayError CloseResult :=
  if env.positionAddress = "" then
    Except.error (GatewayError.badRequest "Missing required parameters")
  else if env.walletFound = false then
    Except.error (GatewayError.badRequest "Wallet not found")
  else
    match env.ownershipThrew with
    | some msg =>
      if containsSub msg "is not owned by" then Except.error (GatewayError.forbidden msg)
      else Except.error (GatewayError.badRequest msg)
    | none =>
      match env.positions with
      | Except.error msg =>
        if containsSub (toLowerStr msg) "invalid token id" then
          Except.error (GatewayError.notFound "Position closed")
        else Except.error (GatewayError.chain msg)
      | Except.ok pd =>
        if pd.liquidity = 0 ∧ pd.tokensOwed0 = 0 ∧ pd.tokensOwed1 = 0 then
          Except.error (GatewayError.badRequest
            "Position has already been closed or has no liquidity/fees to collect")
        else if env.poolFound then Except.ok (closeSuccess env pd)
        else Except.error (GatewayError.notFound "Pool not found for position")

def closePositionRoute (env : CloseEnv) : Except GatewayError CloseResult :=
  routeWrap "Failed to close position" (closePosition env)

end Uniswap

/-! ### Structural lemmas about the models -/

lemma totalFee_ge (tokensOwed liquidity insideNow insideLast : ℕ) :
    tokensOwed ≤ totalFee tokensOwed liquidity insideNow insideLast :=
  Nat.le_add_right _ _

lemma feeTotals_ge (pd : PositionDetails) (reads : AccReads) :
    pd.tokensOwed0 ≤ (feeTotals pd reads).1 ∧ pd.tokensOwed1 ≤ (feeTotals pd reads).2.1 := by
  obtain ⟨g0, g1, st, lo, up⟩ := reads
  cases g0 <;> cases g1 <;> cases st <;> cases lo <;> cases up <;>
    simp [feeTotals, totalFee, Nat.le_add_right]

lemma feeTotals_of_accFailed (pd : PositionDetails) (reads : AccReads)
    (h : accFailed reads) :
    feeTotals pd reads = (pd.tokensOwed0, pd.tokensOwed1, true) := by
  obtain ⟨g0, g1, st, lo, up⟩ := reads
  cases g0 <;> cases g1 <;> cases st <;> cases lo <;> cases up <;>
    simp [feeTotals] <;> simp [accFailed, Except.isOk, Except.toBool] at h

lemma routeWrap_ok_iff {α : Type} (msg : String) (r : Except GatewayError α) (v : α) :
    routeWrap msg r = Except.ok v ↔ r = Except.ok v := by
  cases r with
  | ok w => simp [routeWrap]
  | error e => simp [routeWrap]; split <;> simp

lemma getPositionInfo_ok_inv {env : PositionInfoEnv} {res : PositionInfoResult}
    (h : getPositionInfo env = Except.ok res) :
    ∃ pd, env.positions = Except.ok pd ∧
      res = (if isBaseToken0 pd.token0 pd.token1
        then (⟨(feeTotals pd env.reads).1, (feeTotals pd env.reads).2.1,
          (feeTotals pd env.reads).2.2⟩ : PositionInfoResult)
        else ⟨(feeTotals pd env.reads).2.1, (feeTotals pd env.reads).1,
          (feeTotals pd env.reads).2.2⟩) := by
  unfold getPositionInfo at h
  split at h
  · simp at h
  · split at h
    next msg heq => simp at h
    next pd heq =>
      refine ⟨pd, heq, ?_⟩
      split at h
      · split at h
        next hbase => simp at h; simp [hbase, ← h]
        next hbase => simp at h; simp [hbase, ← h]
      · simp at h

lemma closePosition_ok_inv {env : Uniswap.CloseEnv} {res : Uniswap.CloseResult}
    (h : Uniswap.closePosition env = Except.ok res) :
    env.ownershipThrew = none ∧
      ∃ pd, env.positions = Except.ok pd ∧ res = Uniswap.closeSuccess env pd := by
  unfold Uniswap.closePosition at h
  split at h
  · simp at h
  · split at h
    · simp at h
    · split at h
      next msg heq => split at h <;> simp at h
      next hown =>
        refine ⟨hown, ?_⟩
        split at h
        next msg heq => split at h <;> simp at h
        next pd heq =>
          refine ⟨pd, heq, ?_⟩
          split at h
          · simp at h
          · split at h
            · simp at h; exact h.symm
            · simp at h

lemma closePosition_eq_ok (env : Uniswap.CloseEnv) (pd : PositionDetails)
    (ha : env.positionAddress ≠ "") (hw : env.walletFound = true)
    (ho : env.ownershipThrew = none) (hp : env.positions = Except.ok pd)
    (hc : ¬(pd.liquidity = 0 ∧ pd.tokensOwed0 = 0 ∧ pd.tokensOwed1 = 0))
    (hpool : env.poolFound = true) :
    Uniswap.closePosition env = Except.ok (Uniswap.closeSuccess env pd) := by
  unfold Uniswap.closePosition
  rw [if_neg ha]
  rw [if_neg (by simp [hw])]
  simp only [ho, hp]
  rw [if_neg hc, if_pos hpool]

lemma getPositionInfo_eq_ok (env : PositionInfoEnv) (pd : PositionDetails)
    (haddr : env.positionAddress ≠ "") (hpos : env.positions = Except.ok pd)
    (hpool : env.poolFound = true) :
    getPositionInfo env = Except.ok
      (if isBaseToken0 pd.token0 pd.token1
        then (⟨(feeTotals pd env.reads).1, (feeTotals pd env.reads).2.1,
          (feeTotals pd env.reads).2.2⟩ : PositionInfoResult)
        else ⟨(feeTotals pd env.reads).2.1, (feeTotals pd env.reads).1,
          (feeTotals pd env.reads).2.2⟩) := by
  unfold getPositionInfo
  rw [if_neg haddr]
  simp only [hpos]
  rw [if_pos hpool]
  split <;> rfl

lemma isOk_false_of_not_ok {α : Type} (r : Except GatewayError α)
    (h : ∀ v, r ≠ Except.ok v) : r.isOk = false := by
  cases r with
  | error e => rfl
  | ok v => exact absurd rfl (h v)

/-! ### Concrete request fixtures -/

def trivialReads : AccReads :=
  ⟨Except.ok 0, Except.ok 0, Except.ok 0, Except.ok ⟨0, 0⟩, Except.ok ⟨0, 0⟩⟩

def sampleReadsFail : AccReads :=
  ⟨Except.error "rpc timeout", Except.ok 0, Except.ok 0, Except.ok ⟨0, 0⟩, Except.ok ⟨0, 0⟩⟩

def samplePosition : PositionDetails :=
  { token0 := ⟨"0x1", "AAA"⟩, token1 := ⟨"0x2", "BBB"⟩,
    tickLower := -10, tickUpper := 10, liquidity := 1000,
    tokensOwed0 := 3, tokensOwed1 := 4,
    feeGrowthInside0Last := 0, feeGrowthInside1Last := 0 }

def invalidTokenInfoEnv : PositionInfoEnv :=
  { positionAddress := "1503952", positions := Except.error "Invalid token ID",
    reads := trivialReads, poolFound := true }

def invalidTokenCloseEnv : Uniswap.CloseEnv :=
  { positionAddress := "1503952", walletFound := true, ownershipThrew := none,
    positions := Except.error "Invalid token ID", reads := trivialReads,
    poolFound := true, amount0 := 0, amount1 := 0,
    receipt := ⟨"0xaaaa", 1, 21000, 1⟩ }

def sampleInfoEnvFail : PositionInfoEnv :=
  { positionAddress := "1", positions := Except.ok samplePosition,
    reads := sampleReadsFail, poolFound := true }

def sampleCloseEnvFail : Uniswap.CloseEnv :=
  { positionAddress := "42", walletFound := true, ownershipThrew := none,
    positions := Except.ok samplePosition, reads := sampleReadsFail,
    poolFound := true, amount0 := 7, amount1 := 8,
    receipt := ⟨"0xabc", 1, 21000, 2⟩ }

def sampleInfoEnvOk : PositionInfoEnv :=
  { positionAddress := "1", positions := Except.ok samplePosition,
    reads := trivialReads, poolFound := true }

def sampleCloseEnvOk : Uniswap.CloseEnv :=
  { positionAddress := "42", walletFound := true, ownershipThrew := none,
    positions := Except.ok samplePosition, reads := trivialReads,
    poolFound := true, amount0 := 7, amount1 := 8,
    receipt := ⟨"0xabc", 1, 21000, 2⟩ }

/-! ### Claim theorems about the request flow -/

/-- C4 (code bug): when the position lookup rejects with `Invalid token ID`
(burned or invalid token), the position-info route surfaces the generic
internal failure, not `NotFound` — the message-based mapping exists only in
closePosition.ts lines 62-71, as the third conjunct shows; the repo test
for this route expects 404 here. The absent-id half of the claim does hold:
an empty `positionAddress` fails with the bad-request error. -/
theorem positionInfo_invalid_token_id_bug :
    positionInfoRoute invalidTokenInfoEnv =
      Except.error (GatewayError.internalServerError "Failed to get position info")
    ∧ getPositionInfo { invalidTokenInfoEnv with positionAddress := "" } =
      Except.error (GatewayError.badRequest "Position token ID is required")
    ∧ Uniswap.closePosition invalidTokenCloseEnv =
      Except.error (GatewayError.notFound "Position closed") :=
  ⟨by decide, by decide, by decide⟩

/-- C6: if any of the five accumulator reads fails after retry exhaustion,
both routes still succeed, reporting exactly the `tokensOwed` values as fees
with the warning branch taken; the position lookup and ownership checks
outside the fee-enrichment block remain fatal. -/
theorem accumulator_failure_degrades
    (env : PositionInfoEnv) (cenv : Uniswap.CloseEnv) (pd pd2 : PositionDetails)
    (haddr : env.positionAddress ≠ "")
    (hpos : env.positions = Except.ok pd)
    (hpool : env.poolFound = true)
    (hfail : accFailed env.reads) :
    positionInfoRoute env = Except.ok
      (if isBaseToken0 pd.token0 pd.token1
        then ⟨pd.tokensOwed0, pd.tokensOwed1, true⟩
        else ⟨pd.tokensOwed1, pd.tokensOwed0, true⟩)
    ∧ (cenv.positionAddress ≠ "" → cenv.walletFound = true →
        cenv.ownershipThrew = none → cenv.positions = Except.ok pd2 →
        ¬(pd2.liquidity = 0 ∧ pd2.tokensOwed0 = 0 ∧ pd2.tokensOwed1 = 0) →
        cenv.poolFound = true → accFailed cenv.reads →
        ∃ res, Uniswap.closePositionRoute cenv = Except.ok res ∧
          res.data.baseFeeAmountCollected =
            (if isBaseToken0 pd2.token0 pd2.token1 then pd2.tokensOwed0 else pd2.tokensOwed1) ∧
          res.data.quoteFeeAmountCollected =
            (if isBaseToken0 pd2.token0 pd2.token1 then pd2.tokensOwed1 else pd2.tokensOwed0))
    ∧ (∀ msg, (positionInfoRoute { env with positions := Except.error msg }).isOk = false)
    ∧ (∀ msg, (Uniswap.closePositionRoute
        { cenv with ownershipThrew := some msg }).isOk = false)
    ∧ (∀ msg, (Uniswap.closePositionRoute
        { cenv with positions := Except.error msg }).isOk = false) := by
  have hft := feeTotals_of_accFailed pd env.reads hfail
  refine ⟨?_, ?_, ?_, ?_, ?_⟩
  · unfold positionInfoRoute
    rw [getPositionInfo_eq_ok env pd haddr hpos hpool]
    simp only [hft]
    rfl
  · intro h1 h2 h3 h4 h5 h6 h7
    have hft2 := feeTotals_of_accFailed pd2 cenv.reads h7
    refine ⟨Uniswap.closeSuccess cenv pd2, ?_, ?_, ?_⟩
    · unfold Uniswap.closePositionRoute
      rw [closePosition_eq_ok cenv pd2 h1 h2 h3 h4 h5 h6]
      rfl
    · simp only [Uniswap.closeSuccess, hft2]
    · simp only [Uniswap.closeSuccess, hft2]
  · intro msg
    apply isOk_false_of_not_ok
    intro v hv
    unfold positionInfoRoute at hv
    obtain ⟨pd1, hpd1, -⟩ := getPositionInfo_ok_inv ((routeWrap_ok_iff _ _ _).mp hv)
    simp at hpd1
  · intro msg
    apply isOk_false_of_not_ok
    intro v hv
    unfold Uniswap.closePositionRoute at hv
    obtain ⟨hown, -⟩ := closePosition_ok_inv ((routeWrap_ok_iff _ _ _).mp hv)
    simp at hown
  · intro msg
    apply isOk_false_of_not_ok
    intro v hv
    unfold Uniswap.closePositionRoute at hv
    obtain ⟨-, pd1, hpd1, -⟩ := closePosition_ok_inv ((routeWrap_ok_iff _ _ _).mp hv)
    simp at hpd1

/-- C6 witness: with the first global-accumulator read failing, the
position-info request still succeeds, reporting the raw `tokensOwed`. -/
theorem accumulator_failure_degrades_witness :
    positionInfoRoute sampleInfoEnvFail = Except.ok ⟨3, 4, true⟩ := by
  have h := (accumulator_failure_degrades sampleInfoEnvFail sampleCloseEnvFail
      samplePosition samplePosition (by decide) rfl rfl (Or.inl rfl)).1
  exact h.trans (by decide)

/-- C9: on every path — accumulator reads succeeding or not — the fee
reported for each token is at least that token's `tokensOwed` value from
the position snapshot, in both `getPositionInfo` and `closePosition`. -/
theorem reported_fee_ge_tokensOwed
    (env : PositionInfoEnv) (cenv : Uniswap.CloseEnv) (pd pd2 : PositionDetails)
    (res : PositionInfoResult) (cres : Uniswap.CloseResult)
    (hpos : env.positions = Except.ok pd)
    (hres : getPositionInfo env = Except.ok res)
    (hcpos : cenv.positions = Except.ok pd2)
    (hcres : Uniswap.closePosition cenv = Except.ok cres) :
    (res.baseFeeAmount ≥
      if isBaseToken0 pd.token0 pd.token1 then pd.tokensOwed0 else pd.tokensOwed1)
    ∧ (res.quoteFeeAmount ≥
      if isBaseToken0 pd.token0 pd.token1 then pd.tokensOwed1 else pd.tokensOwed0)
    ∧ (cres.data.baseFeeAmountCollected ≥
      if isBaseToken0 pd2.token0 pd2.token1 then pd2.tokensOwed0 else pd2.tokensOwed1)
    ∧ (cres.data.quoteFeeAmountCollected ≥
      if isBaseToken0 pd2.token0 pd2.token1 then pd2.tokensOwed1 else pd2.tokensOwed0) := by
  obtain ⟨pd1, hpd1, hres1⟩ := getPositionInfo_ok_inv hres
  rw [hpos] at hpd1
  injection hpd1 with hpd1
  subst hpd1
  obtain ⟨-, pdc, hpdc, hcres1⟩ := closePosition_ok_inv hcres
  rw [hcpos] at hpdc
  injection hpdc with hpdc
  subst hpdc
  have hge := feeTotals_ge pd env.reads
  have hgec := feeTotals_ge pd2 cenv.reads
  subst hres1
  subst hcres1
  have hbase : (Uniswap.closeSuccess cenv pd2).data.baseFeeAmountCollected =
      (if isBaseToken0 pd2.token0 pd2.token1
        then (feeTotals pd2 cenv.reads).1 else (feeTotals pd2 cenv.reads).2.1) := rfl
  have hquote : (Uniswap.closeSuccess cenv pd2).data.quoteFeeAmountCollected =
      (if isBaseToken0 pd2.token0 pd2.token1
        then (feeTotals pd2 cenv.reads).2.1 else (feeTotals pd2 cenv.reads).1) := rfl
  refine ⟨?_, ?_, ?_, ?_⟩
  · split
    · exact hge.1
    · exact hge.2
  · split
    · exact hge.2
    · exact hge.1
  · rw [hbase]
    split
    · exact hgec.1
    · exact hgec.2
  · rw [hquote]
    split
    · exact hgec.2
    · exact hgec.1

/-- C9 witness: with all reads succeeding on the sample environments, the
reported base fee meets the tokensOwed floor. -/
theorem reported_fee_ge_tokensOwed_witness :
    (⟨3, 4, false⟩ : PositionInfoResult).baseFeeAmount ≥ 3 := by
  have h := (reported_fee_ge_tokensOwed sampleInfoEnvOk sampleCloseEnvOk
      samplePosition samplePosition ⟨3, 4, false⟩
      ⟨"0xabc", 1, ⟨42000, 0, 10, 12, 3, 4⟩⟩
      rfl (by decide) rfl (by decide)).1
  have hb : (3 : ℕ) = (if isBaseToken0 samplePosition.token0 samplePosition.token1
      then samplePosition.tokensOwed0 else samplePosition.tokensOwed1) := by decide
  exact le_trans (le_of_eq hb) h

/-- C10: the amount-removed, fee-collected and rent fields of the atomic
close response are computed from the pre-transaction snapshot and pool
state only — two runs differing only in the receipt report identical
values there, the receipt determining only signature, status and gas fee. -/
theorem close_amounts_receipt_independent
    (env : Uniswap.CloseEnv) (r1 r2 : Uniswap.Receipt)
    (res1 res2 : Uniswap.CloseResult)
    (h1 : Uniswap.closePosition { env with receipt := r1 } = Except.ok res1)
    (h2 : Uniswap.closePosition { env with receipt := r2 } = Except.ok res2) :
    res1.data.baseTokenAmountRemoved = res2.data.baseTokenAmountRemoved
    ∧ res1.data.quoteTokenAmountRemoved = res2.data.quoteTokenAmountRemoved
    ∧ res1.data.baseFeeAmountCollected = res2.data.baseFeeAmountCollected
    ∧ res1.data.quoteFeeAmountCollected = res2.data.quoteFeeAmountCollected
    ∧ res1.data.positionRentRefunded = res2.data.positionRentRefunded
    ∧ res1.signature = r1.transactionHash
    ∧ res1.status = r1.status
    ∧ res1.data.fee = r1.gasUsed * r1.effectiveGasPrice := by
  obtain ⟨-, pd1, hpd1, he1⟩ := closePosition_ok_inv h1
  obtain ⟨-, pd2, hpd2, he2⟩ := closePosition_ok_inv h2
  have hp1 : env.positions = Except.ok pd1 := hpd1
  have hp2 : env.positions = Except.ok pd2 := hpd2
  rw [hp1] at hp2
  injection hp2 with hp2
  subst hp2
  subst he1
  subst he2
  simp [Uniswap.closeSuccess]

/-- C10 witness: two receipts, identical amount and fee fields. -/
theorem close_amounts_receipt_independent_witness :
    (⟨"0xa", 1, ⟨30, 0, 10, 12, 3, 4⟩⟩ : Uniswap.CloseResult).data.baseTokenAmountRemoved =
      (⟨"0xb", 0, ⟨56, 0, 10, 12, 3, 4⟩⟩ : Uniswap.CloseResult).data.baseTokenAmountRemoved :=
  (close_amounts_receipt_independent sampleCloseEnvOk ⟨"0xa", 1, 5, 6⟩ ⟨"0xb", 0, 7, 8⟩
    ⟨"0xa", 1, ⟨30, 0, 10, 12, 3, 4⟩⟩ ⟨"0xb", 0, ⟨56, 0, 10, 12, 3, 4⟩⟩
    (by decide) (by decide)).1

namespace Meteora

/-! ### Sequential (Meteora) close: confirmed-branch reconciliation

JavaScript number arithmetic on token amounts is modelled exactly over the
rationals. -/

/-- Inputs to the confirmed-close response assembly: the two wallet balance
changes extracted from the transaction, the fee amounts read from the
position before closing, the rent of the position account (lamports / 1e9),
the fee of the last transaction sent, the accumulated fee of all
transactions, and which side of the pair is the native SOL mint. -/
structure ConfirmedCloseEnv where
  balanceChangeX : ℚ
  balanceChangeY : ℚ
  baseFeeAmount : ℚ
  quoteFeeAmount : ℚ
  positionRentRefunded : ℚ
  lastTxFee : ℚ
  totalFee : ℚ
  tokenXIsSol : Bool
  tokenYIsSol : Bool
  signature : String

structure CloseData where
  fee : ℚ
  positionRentRefunded : ℚ
  baseTokenAmountRemoved : ℚ
  quoteTokenAmountRemoved : ℚ
  baseFeeAmountCollected : ℚ
  quoteFeeAmountCollected : ℚ

structure CloseResult where
  signature : String
  status : ℕ
  data : CloseData

/-- Embeds the confirmed branch of the Meteora `closePosition`
(closePosition.ts lines 473-520): the balance deltas are taken in absolute
value; each amount removed starts as `max(0, delta - fee)` and is
overwritten with `max(0, delta - fee - rentRefund + txFee)` when that side
is the native SOL mint. -/
def confirmedClose (env : ConfirmedCloseEnv) : CloseResult :=
  let totalTokenXReceived := |env.balanceChangeX|
  let totalTokenYReceived := |env.balanceChangeY|
  let base0 := max 0 (totalTokenXReceived - env.baseFeeAmount)
  let quote0 := max 0 (totalTokenYReceived - env.quoteFeeAmount)
  let baseTokenAmountRemoved := if env.tokenXIsSol then
      max 0 (totalTokenXReceived - env.baseFeeAmount - env.positionRentRefunded + env.lastTxFee)
    else base0
  let quoteTokenAmountRemoved := if env.tokenYIsSol then
      max 0 (totalTokenYReceived - env.quoteFeeAmount - env.positionRentRefunded + env.lastTxFee)
    else quote0
  { signature := env.signature
    status := 1
    data := {
      fee := env.totalFee
      positionRentRefunded := env.positionRentRefunded
      baseTokenAmountRemoved := baseTokenAmountRemoved
      quoteTokenAmountRemoved := quoteTokenAmountRemoved
      baseFeeAmountCollected := env.baseFeeAmount
      quoteFeeAmountCollected := env.quoteFeeAmount } }

end Meteora

/-- C3: in the sequential close, each reported amount removed equals
`max(0, rawDelta - feeCollected)` on a non-native side and
`max(0, rawDelta - feeCollected - rentRefund + txFee)` on the native-SOL
side, and is in particular never negative. -/
theorem meteora_amounts_removed_spec (env : Meteora.ConfirmedCloseEnv) :
    ((Meteora.confirmedClose env).data.baseTokenAmountRemoved =
      (if env.tokenXIsSol
        then max 0 (|env.balanceChangeX| - env.baseFeeAmount
          - env.positionRentRefunded + env.lastTxFee)
        else max 0 (|env.balanceChangeX| - env.baseFeeAmount)))
    ∧ ((Meteora.confirmedClose env).data.quoteTokenAmountRemoved =
      (if env.tokenYIsSol
        then max 0 (|env.balanceChangeY| - env.quoteFeeAmount
          - env.positionRentRefunded + env.lastTxFee)
        else max 0 (|env.balanceChangeY| - env.quoteFeeAmount)))
    ∧ 0 ≤ (Meteora.confirmedClose env).data.baseTokenAmountRemoved
    ∧ 0 ≤ (Meteora.confirmedClose env).data.quoteTokenAmountRemoved := by
  have hb : (Meteora.confirmedClose env).data.baseTokenAmountRemoved =
      (if env.tokenXIsSol
        then max 0 (|env.balanceChangeX| - env.baseFeeAmount
          - env.positionRentRefunded + env.lastTxFee)
        else max 0 (|env.balanceChangeX| - env.baseFeeAmount)) := rfl
  have hq : (Meteora.confirmedClose env).data.quoteTokenAmountRemoved =
      (if env.tokenYIsSol
        then max 0 (|env.balanceChangeY| - env.quoteFeeAmount
          - env.positionRentRefunded + env.lastTxFee)
        else max 0 (|env.balanceChangeY| - env.quoteFeeAmount)) := rfl
  refine ⟨hb, hq, ?_, ?_⟩
  · rw [hb]
    split <;> exact le_max_left 0 _
  · rw [hq]
    split <;> exact le_max_left 0 _

end Gateway
